import Mathlib

/-!
Shallow embedding of the connection/room registry and broadcast engine of
`app/main.py` (class `ConnectionManager` and the websocket endpoint).

The two Python dicts `active_connections : Dict[str, WebSocket]` and
`user_rooms : Dict[str, str]` are modelled as insertion-ordered association
lists, matching CPython dict semantics: inserting an existing key replaces
its value in place, inserting a fresh key appends at the end, `del` removes
the entry, iteration visits entries in insertion order.

A websocket handle is opaque to the registry; it is modelled as a `Nat`
identifier.  Whether `send_text` on a given handle succeeds or raises is
modelled by an environment `sendOk : Handle → Bool`.  Timestamps are omitted
(never inspected by the code); `uuid.uuid4()` for `message_id` is modelled
as a fresh counter value threaded through the session.
-/

set_option autoImplicit false

abbrev Handle := Nat

/-- Python `d[key]` / `d.get(key)`: first (and, for a dict, only) binding. -/
def lookupAL {α : Type} : List (String × α) → String → Option α
  | [], _ => none
  | (k, v) :: rest, key => if k = key then some v else lookupAL rest key

/-- Python `d[key] = val`: replace in place if the key is present, else append. -/
def insertAL {α : Type} (key : String) (val : α) : List (String × α) → List (String × α)
  | [] => [(key, val)]
  | (k, v) :: rest =>
      if k = key then (key, val) :: rest else (k, v) :: insertAL key val rest

/-- Python `del d[key]` (guarded by `if key in d`, so absent keys are a no-op). -/
def eraseAL {α : Type} (key : String) : List (String × α) → List (String × α)
  | [] => []
  | (k, v) :: rest => if k = key then rest else (k, v) :: eraseAL key rest

/-- The mutable state of `ConnectionManager` (main.py lines 27-29). -/
structure ManagerState where
  active_connections : List (String × Handle)
  user_rooms : List (String × String)
  deriving Repr, DecidableEq

/-- main.py lines 31-35: `connect` inserts into both dicts.
(The `websocket.accept()` network call is outside the registry.) -/
def ConnectionManager.connect (st : ManagerState) (websocket : Handle)
    (user_id room_id : String) : ManagerState :=
  { active_connections := insertAL user_id websocket st.active_connections
    user_rooms := insertAL user_id room_id st.user_rooms }

/-- main.py lines 37-42: `disconnect` deletes the user from both dicts if present. -/
def ConnectionManager.disconnect (st : ManagerState) (user_id : String) : ManagerState :=
  { active_connections := eraseAL user_id st.active_connections
    user_rooms := eraseAL user_id st.user_rooms }

/-- The events the endpoint serializes and broadcasts (timestamps omitted;
`message_id` is the freshness counter standing in for `uuid.uuid4()`). -/
inductive Event where
  | message (message_id : Nat) (user_id room_id content : String)
  | user_joined (user_id room_id : String)
  | user_left (user_id room_id : String)
  deriving Repr, DecidableEq

/-- main.py lines 49-56: the `for user_id, websocket in self.active_connections.items()`
loop of `broadcast_to_room`.  For each entry whose room lookup equals `room_id`
and which is not the excluded user, the send is attempted: a success is recorded
in the first component (deliveries, in iteration order), a raising send appends
the user to `disconnected_users` (second component).  `exclude_user = None`
is `none`; the Python comparison `user_id != exclude_user` against `None` is
always true, hence the test `some user_id ≠ exclude_user`. -/
def broadcastLoop (sendOk : Handle → Bool) (room_id : String)
    (exclude_user : Option String) (rooms : List (String × String)) :
    List (String × Handle) → List (String × Handle) × List String
  | [] => ([], [])
  | (user_id, websocket) :: rest =>
      let r := broadcastLoop sendOk room_id exclude_user rooms rest
      if lookupAL rooms user_id = some room_id ∧ some user_id ≠ exclude_user then
        if sendOk websocket then ((user_id, websocket) :: r.1, r.2)
        else (r.1, user_id :: r.2)
      else r

/-- main.py lines 48-60: `broadcast_to_room` runs the send loop over the
current maps, then cleans up every user whose send failed via `disconnect`.
Returns the post-reap state and the list of (recipient, event) deliveries. -/
def ConnectionManager.broadcast_to_room (sendOk : Handle → Bool) (st : ManagerState)
    (message : Event) (room_id : String) (exclude_user : Option String) :
    ManagerState × List (String × Event) :=
  let r := broadcastLoop sendOk room_id exclude_user st.user_rooms st.active_connections
  (r.2.foldl ConnectionManager.disconnect st, r.1.map fun p => (p.1, message))

/-- main.py lines 308-315: the join announcement — a `user_joined` event
broadcast to the room with `exclude_user = user_id`. -/
def announce_join (sendOk : Handle → Bool) (st : ManagerState)
    (user_id room_id : String) : ManagerState × List (String × Event) :=
  ConnectionManager.broadcast_to_room sendOk st (Event.user_joined user_id room_id)
    room_id (some user_id)

/-- main.py lines 323-335: relaying an inbound chat message — a `message`
event broadcast to the room with `exclude_user = user_id`. -/
def relay_message (sendOk : Handle → Bool) (st : ManagerState) (message_id : Nat)
    (user_id room_id content : String) : ManagerState × List (String × Event) :=
  ConnectionManager.broadcast_to_room sendOk st
    (Event.message message_id user_id room_id content) room_id (some user_id)

/-- main.py lines 350-356: the leave announcement — a `user_left` event
broadcast to the room with no excluded user. -/
def announce_leave (sendOk : Handle → Bool) (st : ManagerState)
    (user_id room_id : String) : ManagerState × List (String × Event) :=
  ConnectionManager.broadcast_to_room sendOk st (Event.user_left user_id room_id)
    room_id none

/-- One inbound frame as the loop body of main.py lines 318-341 sees it:
`text ty c` is a frame whose JSON decoded to an object with optional
`"type"` field `ty` and optional `"content"` field `c`; `undecodable` is a
frame on which `json.loads` (or the subscript on a non-object) raises;
`closedFrame` is `WebSocketDisconnect` from `receive_text`. -/
inductive Payload where
  | text (ty : Option String) (content : Option String)
  | undecodable
  | closedFrame
  deriving Repr, DecidableEq

/-- main.py lines 319-341: one iteration of the inbound loop.  Returns the
new state, the deliveries it caused, the next fresh message id, and whether
the loop continues (`false` on `break`: disconnect, json error, or `KeyError`
on a missing `"type"` or `"content"` key). -/
def inboundStep (sendOk : Handle → Bool) (user_id room_id : String)
    (st : ManagerState) (mid : Nat) :
    Payload → ManagerState × List (String × Event) × Nat × Bool
  | Payload.text (some ty) c =>
      if ty = "message" then
        match c with
        | some content =>
            let r := relay_message sendOk st mid user_id room_id content
            (r.1, r.2, mid + 1, true)
        | none => (st, [], mid, false)
      else (st, [], mid, true)
  | Payload.text none _ => (st, [], mid, false)
  | Payload.undecodable => (st, [], mid, false)
  | Payload.closedFrame => (st, [], mid, false)

/-- main.py lines 318-341: the `while True` inbound loop, run over a finite
stream of frames; stops at a `break` or at the end of the stream. -/
def inboundLoop (sendOk : Handle → Bool) (user_id room_id : String) :
    List Payload → ManagerState → Nat → ManagerState × List (String × Event) × Nat
  | [], st, mid => (st, [], mid)
  | p :: rest, st, mid =>
      let r := inboundStep sendOk user_id room_id st mid p
      if r.2.2.2 then
        let r2 := inboundLoop sendOk user_id room_id rest r.1 r.2.2.1
        (r2.1, r.2.1 ++ r2.2.1, r2.2.2)
      else (r.1, r.2.1, r.2.2.1)

/-- main.py lines 302-356: the whole `websocket_endpoint` for one client —
`connect`, join broadcast, inbound loop, and the `finally` block:
`disconnect(user_id)` followed by the unfiltered `user_left` broadcast.
Returns the final state and all deliveries in order. -/
def websocketSession (sendOk : Handle → Bool) (user_id room_id : String)
    (websocket : Handle) (frames : List Payload) (st : ManagerState) (mid : Nat) :
    ManagerState × List (String × Event) :=
  let st1 := ConnectionManager.connect st websocket user_id room_id
  let rj := announce_join sendOk st1 user_id room_id
  let rl := inboundLoop sendOk user_id room_id frames rj.1 mid
  let st4 := ConnectionManager.disconnect rl.1 user_id
  let rv := announce_leave sendOk st4 user_id room_id
  (rv.1, rj.2 ++ rl.2.1 ++ rv.2)

/-- A registry operation, for sequences of register/unregister calls. -/
inductive RegOp where
  | reg (user_id : String) (websocket : Handle) (room_id : String)
  | unreg (user_id : String)
  deriving Repr, DecidableEq

def applyOp (st : ManagerState) : RegOp → ManagerState
  | RegOp.reg u h r => ConnectionManager.connect st h u r
  | RegOp.unreg u => ConnectionManager.disconnect st u

def runOps (st : ManagerState) (ops : List RegOp) : ManagerState :=
  ops.foldl applyOp st

/-- The manager as built at main.py line 62: both dicts empty. -/
def emptyManager : ManagerState := ⟨[], []⟩

/-- Live-iteration model of `broadcast_to_room`'s loop for concurrency analysis.
The Python loop iterates `self.active_connections.items()` directly (no copy),
and each `await websocket.send_text(...)` is a suspension point at which a
concurrently running task may mutate the manager.  This models the dict
iterator as a position index re-reading the current `active_connections`
(faithful to CPython when concurrent mutation only replaces values of existing
keys, which keeps entry positions; a concurrent key insert/delete would make
the iterator raise `RuntimeError`).  `muts` holds the mutation performed by
other tasks during each successive send; `fuel` bounds the recursion and is
never exhausted when mutations preserve the number of entries.
Returns (deliveries, disconnected_users, state after the loop). -/
def liveBroadcastLoop (sendOk : Handle → Bool) (room_id : String)
    (exclude_user : Option String) :
    Nat → Nat → List (ManagerState → ManagerState) → ManagerState →
    List (String × Handle) × List String × ManagerState
  | 0, _, _, st => ([], [], st)
  | fuel + 1, i, muts, st =>
      match st.active_connections.get? i with
      | none => ([], [], st)
      | some (user_id, websocket) =>
          if lookupAL st.user_rooms user_id = some room_id ∧
              some user_id ≠ exclude_user then
            let st2 := (muts.headD id) st
            let r := liveBroadcastLoop sendOk room_id exclude_user fuel (i + 1)
              muts.tail st2
            if sendOk websocket then ((user_id, websocket) :: r.1, r.2.1, r.2.2)
            else (r.1, user_id :: r.2.1, r.2.2)
          else liveBroadcastLoop sendOk room_id exclude_user fuel (i + 1) muts st

/-- Key set of an association list (the dict's keys, in insertion order). -/
def keysAL {α : Type} (l : List (String × α)) : List String :=
  l.map Prod.fst

@[simp] theorem keysAL_nil {α : Type} : keysAL ([] : List (String × α)) = [] := rfl

@[simp] theorem keysAL_cons {α : Type} (p : String × α) (l : List (String × α)) :
    keysAL (p :: l) = p.1 :: keysAL l := rfl

section ALLemmas

variable {α : Type}

theorem lookupAL_insertAL_self (l : List (String × α)) (k : String) (v : α) :
    lookupAL (insertAL k v l) k = some v := by
  induction l with
  | nil => simp [insertAL, lookupAL]
  | cons p rest ih =>
      by_cases h : p.1 = k
      · simp [insertAL, lookupAL, h]
      · simp [insertAL, lookupAL, h, ih]

theorem lookupAL_insertAL_ne (l : List (String × α)) (k u : String) (v : α)
    (h : u ≠ k) : lookupAL (insertAL k v l) u = lookupAL l u := by
  induction l with
  | nil => simp [insertAL, lookupAL, Ne.symm h]
  | cons p rest ih =>
      by_cases hpk : p.1 = k
      · simp [insertAL, lookupAL, hpk, Ne.symm h, h]
      · by_cases hpu : p.1 = u <;>
          simp [insertAL, lookupAL, hpk, hpu, h, ih]

theorem lookupAL_eraseAL_ne (l : List (String × α)) (k u : String)
    (h : u ≠ k) : lookupAL (eraseAL k l) u = lookupAL l u := by
  induction l with
  | nil => simp [eraseAL]
  | cons p rest ih =>
      by_cases hpk : p.1 = k
      · simp [eraseAL, lookupAL, hpk, Ne.symm h]
      · by_cases hpu : p.1 = u <;>
          simp [eraseAL, lookupAL, hpk, hpu, h, ih]

theorem lookupAL_eq_none_of_not_mem_keys (l : List (String × α)) (k : String)
    (h : k ∉ keysAL l) : lookupAL l k = none := by
  induction l with
  | nil => simp [lookupAL]
  | cons p rest ih =>
      rw [keysAL_cons, List.mem_cons, not_or] at h
      have h1 : ¬ p.1 = k := fun e => h.1 e.symm
      simp [lookupAL, h1, ih h.2]

theorem eraseAL_of_lookup_none (l : List (String × α)) (k : String)
    (h : lookupAL l k = none) : eraseAL k l = l := by
  induction l with
  | nil => simp [eraseAL]
  | cons p rest ih =>
      by_cases hpk : p.1 = k
      · simp [lookupAL, hpk] at h
      · simp [lookupAL, hpk] at h
        simp [eraseAL, hpk, ih h]

theorem eraseAL_sublist (l : List (String × α)) (k : String) :
    (eraseAL k l).Sublist l := by
  induction l with
  | nil => simp [eraseAL]
  | cons p rest ih =>
      by_cases hpk : p.1 = k
      · simp only [eraseAL, if_pos hpk]
        exact List.sublist_cons_self p rest
      · simpa [eraseAL, hpk] using List.Sublist.cons₂ p ih

theorem keysAL_insertAL_mem (l : List (String × α)) (k : String) (v : α)
    (h : k ∈ keysAL l) : keysAL (insertAL k v l) = keysAL l := by
  induction l with
  | nil => simp at h
  | cons p rest ih =>
      by_cases hpk : p.1 = k
      · simp [insertAL, hpk]
      · rw [keysAL_cons, List.mem_cons] at h
        have h2 : k ∈ keysAL rest := by
          rcases h with h | h
          · exact absurd h.symm hpk
          · exact h
        simp [insertAL, hpk, ih h2]

theorem keysAL_insertAL_not_mem (l : List (String × α)) (k : String) (v : α)
    (h : k ∉ keysAL l) : keysAL (insertAL k v l) = keysAL l ++ [k] := by
  induction l with
  | nil => simp [insertAL]
  | cons p rest ih =>
      rw [keysAL_cons, List.mem_cons, not_or] at h
      have h1 : ¬ p.1 = k := fun e => h.1 e.symm
      simp [insertAL, h1, ih h.2]

theorem nodup_keysAL_insertAL (l : List (String × α)) (k : String) (v : α)
    (h : (keysAL l).Nodup) : (keysAL (insertAL k v l)).Nodup := by
  by_cases hk : k ∈ keysAL l
  · rw [keysAL_insertAL_mem l k v hk]; exact h
  · rw [keysAL_insertAL_not_mem l k v hk]
    simpa [List.nodup_append] using ⟨h, fun hm => hk hm⟩

theorem nodup_keysAL_eraseAL (l : List (String × α)) (k : String)
    (h : (keysAL l).Nodup) : (keysAL (eraseAL k l)).Nodup :=
  List.Nodup.sublist (List.Sublist.map Prod.fst (eraseAL_sublist l k)) h

theorem lookupAL_eraseAL_self (l : List (String × α)) (k : String)
    (h : (keysAL l).Nodup) : lookupAL (eraseAL k l) k = none := by
  induction l with
  | nil => simp [eraseAL, lookupAL]
  | cons p rest ih =>
      rw [keysAL_cons, List.nodup_cons] at h
      by_cases hpk : p.1 = k
      · simp only [eraseAL, if_pos hpk]
        exact lookupAL_eq_none_of_not_mem_keys rest k (hpk ▸ h.1)
      · simp [eraseAL, lookupAL, hpk, ih h.2]

theorem mem_insertAL_self (l : List (String × α)) (k : String) (v : α) :
    (k, v) ∈ insertAL k v l := by
  induction l with
  | nil => simp [insertAL]
  | cons p rest ih =>
      by_cases hpk : p.1 = k <;> simp [insertAL, hpk, ih]

theorem lookupAL_of_none_eraseAL (l : List (String × α)) (k u : String)
    (h : lookupAL l k = none) : lookupAL (eraseAL u l) k = none := by
  induction l with
  | nil => simp [eraseAL, lookupAL]
  | cons p rest ih =>
      by_cases hpk : p.1 = k
      · simp [lookupAL, hpk] at h
      · simp [lookupAL, hpk] at h
        by_cases hpu : p.1 = u <;> simp [eraseAL, lookupAL, hpk, hpu, ih h, h]

end ALLemmas

section BroadcastLemmas

/-- The send loop computed as filters over the entry list: deliveries are the
room's non-excluded members with a working handle, in iteration order;
`disconnected_users` are those whose send raised. -/
theorem broadcastLoop_eq (sendOk : Handle → Bool) (room : String)
    (ex : Option String) (rooms : List (String × String))
    (conns : List (String × Handle)) :
    broadcastLoop sendOk room ex rooms conns =
      (conns.filter fun p =>
          decide (lookupAL rooms p.1 = some room ∧ some p.1 ≠ ex) && sendOk p.2,
       (conns.filter fun p =>
          decide (lookupAL rooms p.1 = some room ∧ some p.1 ≠ ex) && !sendOk p.2).map
            Prod.fst) := by
  induction conns with
  | nil => rfl
  | cons p rest ih =>
      obtain ⟨pu, ph⟩ := p
      by_cases hc : lookupAL rooms pu = some room ∧ some pu ≠ ex
      · by_cases hs : sendOk ph <;>
          simp [broadcastLoop, List.filter_cons, hc, hs, ih]
      · simp [broadcastLoop, List.filter_cons, hc, ih]

theorem mem_broadcastLoop_sent (sendOk : Handle → Bool) (room : String)
    (ex : Option String) (rooms : List (String × String))
    (conns : List (String × Handle)) (u : String) (h : Handle) :
    (u, h) ∈ (broadcastLoop sendOk room ex rooms conns).1 ↔
      (u, h) ∈ conns ∧ lookupAL rooms u = some room ∧ some u ≠ ex ∧
        sendOk h = true := by
  simp [broadcastLoop_eq, List.mem_filter, and_assoc]

theorem mem_broadcastLoop_failed (sendOk : Handle → Bool) (room : String)
    (ex : Option String) (rooms : List (String × String))
    (conns : List (String × Handle)) (u : String) :
    u ∈ (broadcastLoop sendOk room ex rooms conns).2 ↔
      ∃ h, (u, h) ∈ conns ∧ lookupAL rooms u = some room ∧ some u ≠ ex ∧
        sendOk h = false := by
  rw [broadcastLoop_eq]
  simp only [List.mem_map, List.mem_filter, Bool.and_eq_true, decide_eq_true_eq,
    Bool.not_eq_true']
  constructor
  · rintro ⟨⟨pu, ph⟩, ⟨hm, hcond, hfail⟩, rfl⟩
    exact ⟨ph, hm, hcond.1, hcond.2, hfail⟩
  · rintro ⟨hh, hm, h1, h2, h3⟩
    exact ⟨(u, hh), ⟨hm, ⟨h1, h2⟩, h3⟩, rfl⟩

/-- Deliveries of `broadcast_to_room`: each recipient is a room member with a
working handle, and every delivered event is the broadcast's own event. -/
theorem mem_broadcast_deliveries (sendOk : Handle → Bool) (st : ManagerState)
    (ev : Event) (room : String) (ex : Option String) (u : String) (e : Event) :
    (u, e) ∈ (ConnectionManager.broadcast_to_room sendOk st ev room ex).2 ↔
      e = ev ∧ ∃ h, (u, h) ∈ st.active_connections ∧
        lookupAL st.user_rooms u = some room ∧ some u ≠ ex ∧ sendOk h = true := by
  simp only [ConnectionManager.broadcast_to_room, List.mem_map, Prod.mk.injEq]
  constructor
  · rintro ⟨⟨pu, ph⟩, hm, rfl, rfl⟩
    rw [mem_broadcastLoop_sent] at hm
    exact ⟨rfl, ph, hm⟩
  · rintro ⟨rfl, hh, hm, h1, h2, h3⟩
    exact ⟨(u, hh), (mem_broadcastLoop_sent ..).mpr ⟨hm, h1, h2, h3⟩, rfl, rfl⟩

end BroadcastLemmas


/-- Well-formedness: what every reachable `ConnectionManager` state satisfies
because Python dicts cannot contain a key twice. -/
def WFState (st : ManagerState) : Prop :=
  (keysAL st.active_connections).Nodup ∧ (keysAL st.user_rooms).Nodup

section StatePreservation

theorem WFState_connect (st : ManagerState) (ws : Handle) (u r : String)
    (h : WFState st) : WFState (ConnectionManager.connect st ws u r) :=
  ⟨nodup_keysAL_insertAL _ _ _ h.1, nodup_keysAL_insertAL _ _ _ h.2⟩

theorem WFState_disconnect (st : ManagerState) (u : String)
    (h : WFState st) : WFState (ConnectionManager.disconnect st u) :=
  ⟨nodup_keysAL_eraseAL _ _ h.1, nodup_keysAL_eraseAL _ _ h.2⟩

theorem WFState_foldl_disconnect (us : List String) (st : ManagerState)
    (h : WFState st) : WFState (us.foldl ConnectionManager.disconnect st) := by
  induction us generalizing st with
  | nil => exact h
  | cons u rest ih => exact ih _ (WFState_disconnect st u h)

theorem WFState_broadcast (sendOk : Handle → Bool) (st : ManagerState)
    (ev : Event) (room : String) (ex : Option String) (h : WFState st) :
    WFState (ConnectionManager.broadcast_to_room sendOk st ev room ex).1 :=
  WFState_foldl_disconnect _ st h

theorem WFState_inboundStep (sendOk : Handle → Bool) (uid rid : String)
    (st : ManagerState) (mid : Nat) (p : Payload) (h : WFState st) :
    WFState (inboundStep sendOk uid rid st mid p).1 := by
  cases p with
  | text ty c =>
      cases ty with
      | none => exact h
      | some t =>
          by_cases hm : t = "message"
          · cases c with
            | some content =>
                simpa [inboundStep, hm] using
                  WFState_broadcast sendOk st _ rid (some uid) h
            | none => simpa [inboundStep, hm] using h
          · simpa [inboundStep, hm] using h
  | undecodable => exact h
  | closedFrame => exact h

theorem WFState_inboundLoop (sendOk : Handle → Bool) (uid rid : String)
    (frames : List Payload) (st : ManagerState) (mid : Nat) (h : WFState st) :
    WFState (inboundLoop sendOk uid rid frames st mid).1 := by
  induction frames generalizing st mid with
  | nil => exact h
  | cons p rest ih =>
      by_cases hc : (inboundStep sendOk uid rid st mid p).2.2.2 = true
      · simpa [inboundLoop, hc] using
          ih _ _ (WFState_inboundStep sendOk uid rid st mid p h)
      · simpa [inboundLoop, hc] using WFState_inboundStep sendOk uid rid st mid p h

theorem lookup_none_disconnect (st : ManagerState) (u v : String)
    (ha : lookupAL st.active_connections u = none)
    (hr : lookupAL st.user_rooms u = none) :
    lookupAL (ConnectionManager.disconnect st v).active_connections u = none ∧
      lookupAL (ConnectionManager.disconnect st v).user_rooms u = none :=
  ⟨lookupAL_of_none_eraseAL _ u v ha, lookupAL_of_none_eraseAL _ u v hr⟩

theorem lookup_none_foldl_disconnect (us : List String) (st : ManagerState)
    (u : String) (ha : lookupAL st.active_connections u = none)
    (hr : lookupAL st.user_rooms u = none) :
    lookupAL ((us.foldl ConnectionManager.disconnect st)).active_connections u
        = none ∧
      lookupAL ((us.foldl ConnectionManager.disconnect st)).user_rooms u = none := by
  induction us generalizing st with
  | nil => exact ⟨ha, hr⟩
  | cons v rest ih =>
      have h2 := lookup_none_disconnect st u v ha hr
      exact ih _ h2.1 h2.2

end StatePreservation

section SessionLemmas

/-- An inbound frame that the loop body of main.py lines 318-341 handles
without reaching a `break`: a decoded object with a `"type"` field that
either is not `"message"` or comes with a `"content"` field. -/
def nonBreaking : Payload → Bool
  | Payload.text (some ty) c => ty != "message" || c.isSome
  | _ => false

theorem inboundStep_continues (sendOk : Handle → Bool) (uid rid : String)
    (st : ManagerState) (mid : Nat) (p : Payload)
    (h : nonBreaking p = true) :
    (inboundStep sendOk uid rid st mid p).2.2.2 = true := by
  cases p with
  | text ty c =>
      cases ty with
      | none => simp [nonBreaking] at h
      | some t =>
          cases c with
          | some content => by_cases hm : t = "message" <;> simp [inboundStep, hm]
          | none =>
              have ht : ¬ t = "message" := by simpa [nonBreaking] using h
              simp [inboundStep, ht]
  | undecodable => simp [nonBreaking] at h
  | closedFrame => simp [nonBreaking] at h

/-- Splitting the inbound loop at a prefix none of whose frames breaks. -/
theorem inboundLoop_append (sendOk : Handle → Bool) (uid rid : String)
    (pre rest : List Payload) (st : ManagerState) (mid : Nat)
    (h : pre.all nonBreaking = true) :
    inboundLoop sendOk uid rid (pre ++ rest) st mid =
      ((inboundLoop sendOk uid rid rest
          (inboundLoop sendOk uid rid pre st mid).1
          (inboundLoop sendOk uid rid pre st mid).2.2).1,
       (inboundLoop sendOk uid rid pre st mid).2.1 ++
         (inboundLoop sendOk uid rid rest
           (inboundLoop sendOk uid rid pre st mid).1
           (inboundLoop sendOk uid rid pre st mid).2.2).2.1,
       (inboundLoop sendOk uid rid rest
         (inboundLoop sendOk uid rid pre st mid).1
         (inboundLoop sendOk uid rid pre st mid).2.2).2.2) := by
  induction pre generalizing st mid with
  | nil => simp [inboundLoop]
  | cons p t ih =>
      rw [List.all_cons, Bool.and_eq_true] at h
      have hc := inboundStep_continues sendOk uid rid st mid p h.1
      simp [inboundLoop, hc, ih _ _ h.2]

theorem inboundLoop_undecodable (sendOk : Handle → Bool) (uid rid : String)
    (rest : List Payload) (st : ManagerState) (mid : Nat) :
    inboundLoop sendOk uid rid (Payload.undecodable :: rest) st mid
      = (st, [], mid) := by
  simp [inboundLoop, inboundStep]

theorem inboundLoop_missing_content (sendOk : Handle → Bool) (uid rid : String)
    (rest : List Payload) (st : ManagerState) (mid : Nat) :
    inboundLoop sendOk uid rid (Payload.text (some "message") none :: rest) st mid
      = (st, [], mid) := by
  simp [inboundLoop, inboundStep]

end SessionLemmas

section KeysCongr

theorem keysAL_insertAL_congr {α β : Type} (l1 : List (String × α))
    (l2 : List (String × β)) (k : String) (v1 : α) (v2 : β)
    (h : keysAL l1 = keysAL l2) :
    keysAL (insertAL k v1 l1) = keysAL (insertAL k v2 l2) := by
  by_cases hk : k ∈ keysAL l1
  · rw [keysAL_insertAL_mem l1 k v1 hk, keysAL_insertAL_mem l2 k v2 (h ▸ hk), h]
  · rw [keysAL_insertAL_not_mem l1 k v1 hk,
      keysAL_insertAL_not_mem l2 k v2 (fun m => hk (h ▸ m)), h]

theorem keysAL_eraseAL_eq_erase {α : Type} (l : List (String × α)) (k : String) :
    keysAL (eraseAL k l) = (keysAL l).erase k := by
  induction l with
  | nil => rfl
  | cons p rest ih =>
      by_cases hpk : p.1 = k
      · simp [eraseAL, List.erase_cons, hpk]
      · simp [eraseAL, List.erase_cons, hpk, ih]

theorem keysAL_eraseAL_congr {α β : Type} (l1 : List (String × α))
    (l2 : List (String × β)) (k : String) (h : keysAL l1 = keysAL l2) :
    keysAL (eraseAL k l1) = keysAL (eraseAL k l2) := by
  rw [keysAL_eraseAL_eq_erase, keysAL_eraseAL_eq_erase, h]

theorem runOps_keys_eq (ops : List RegOp) (st : ManagerState)
    (h : keysAL st.active_connections = keysAL st.user_rooms) :
    keysAL (runOps st ops).active_connections
      = keysAL (runOps st ops).user_rooms := by
  induction ops generalizing st with
  | nil => exact h
  | cons op rest ih =>
      cases op with
      | reg u ws r =>
          exact ih (applyOp st (RegOp.reg u ws r))
            (keysAL_insertAL_congr _ _ u ws r h)
      | unreg u =>
          exact ih (applyOp st (RegOp.unreg u)) (keysAL_eraseAL_congr _ _ u h)

end KeysCongr

/-- C2: membership consistency — for every sequence of register (`connect`)
and unregister (`disconnect`) calls starting from the empty registry, the
identities that are keys of `active_connections` are exactly the identities
that are keys of `user_rooms` (here even as equal insertion-ordered lists,
which implies equality of the key sets). -/
theorem C2_membership_consistency (ops : List RegOp) :
    keysAL (runOps emptyManager ops).active_connections
      = keysAL (runOps emptyManager ops).user_rooms :=
  runOps_keys_eq ops emptyManager rfl

/-- C8: duplicate registration silently replaces — `connect` is a total
operation with no error path; on any prior state it maps the identity to the
new handle and the new room, leaves every other identity's entries untouched,
and the identity is subsequently included in broadcasts to its room. -/
theorem C8_register_replaces (st : ManagerState) (u v r : String) (h : Handle)
    (ok : Handle → Bool) (ex : Option String)
    (hv : v ≠ u) (hex : some u ≠ ex) (hok : ok h = true) :
    lookupAL (ConnectionManager.connect st h u r).active_connections u = some h ∧
    lookupAL (ConnectionManager.connect st h u r).user_rooms u = some r ∧
    lookupAL (ConnectionManager.connect st h u r).active_connections v
      = lookupAL st.active_connections v ∧
    lookupAL (ConnectionManager.connect st h u r).user_rooms v
      = lookupAL st.user_rooms v ∧
    (u, h) ∈ (broadcastLoop ok r ex
      (ConnectionManager.connect st h u r).user_rooms
      (ConnectionManager.connect st h u r).active_connections).1 := by
  simp only [ConnectionManager.connect]
  refine ⟨lookupAL_insertAL_self _ u h, lookupAL_insertAL_self _ u r,
    lookupAL_insertAL_ne _ u v h hv, lookupAL_insertAL_ne _ u v r hv, ?_⟩
  rw [mem_broadcastLoop_sent]
  exact ⟨mem_insertAL_self _ u h, lookupAL_insertAL_self _ u r, hex, hok⟩

theorem C8_register_replaces_witness :
    lookupAL (ConnectionManager.connect
        ⟨[("bob", 7)], [("bob", "general")]⟩ 5 "bob" "other").active_connections
        "bob" = some 5 ∧
    lookupAL (ConnectionManager.connect
        ⟨[("bob", 7)], [("bob", "general")]⟩ 5 "bob" "other").user_rooms
        "bob" = some "other" ∧
    lookupAL (ConnectionManager.connect
        ⟨[("bob", 7)], [("bob", "general")]⟩ 5 "bob" "other").active_connections
        "alice" = lookupAL [("bob", 7)] "alice" ∧
    lookupAL (ConnectionManager.connect
        ⟨[("bob", 7)], [("bob", "general")]⟩ 5 "bob" "other").user_rooms
        "alice" = lookupAL [("bob", "general")] "alice" ∧
    ("bob", 5) ∈ (broadcastLoop (fun _ => true) "other" none
      (ConnectionManager.connect
        ⟨[("bob", 7)], [("bob", "general")]⟩ 5 "bob" "other").user_rooms
      (ConnectionManager.connect
        ⟨[("bob", 7)], [("bob", "general")]⟩ 5 "bob" "other").active_connections).1 :=
  C8_register_replaces ⟨[("bob", 7)], [("bob", "general")]⟩ "bob" "alice" "other"
    5 (fun _ => true) none (by decide) (by decide) rfl

/-- C9: idempotent unregister — on any well-formed state, `disconnect` twice
equals `disconnect` once, and `disconnect` of an identity absent from both
maps is a no-op (not an error). -/
theorem C9_idempotent_unregister (st : ManagerState) (u : String)
    (hwf : WFState st) :
    ConnectionManager.disconnect (ConnectionManager.disconnect st u) u
        = ConnectionManager.disconnect st u ∧
      (lookupAL st.active_connections u = none →
        lookupAL st.user_rooms u = none →
        ConnectionManager.disconnect st u = st) := by
  obtain ⟨a, r⟩ := st
  obtain ⟨hwa, hwr⟩ := hwf
  constructor
  · simp only [ConnectionManager.disconnect]
    rw [eraseAL_of_lookup_none _ u (lookupAL_eraseAL_self a u hwa),
      eraseAL_of_lookup_none _ u (lookupAL_eraseAL_self r u hwr)]
  · intro ha hr
    simp only [ConnectionManager.disconnect] at *
    rw [eraseAL_of_lookup_none a u ha, eraseAL_of_lookup_none r u hr]

theorem C9_idempotent_unregister_witness :
    ConnectionManager.disconnect
        (ConnectionManager.disconnect ⟨[("bob", 7)], [("bob", "general")]⟩ "alice")
        "alice"
      = ConnectionManager.disconnect ⟨[("bob", 7)], [("bob", "general")]⟩ "alice" ∧
    ConnectionManager.disconnect ⟨[("bob", 7)], [("bob", "general")]⟩ "alice"
      = ⟨[("bob", 7)], [("bob", "general")]⟩ :=
  ⟨(C9_idempotent_unregister ⟨[("bob", 7)], [("bob", "general")]⟩ "alice"
      (by constructor <;> decide)).1,
   (C9_idempotent_unregister ⟨[("bob", 7)], [("bob", "general")]⟩ "alice"
      (by constructor <;> decide)).2 (by decide) (by decide)⟩

/-- C6: unregister is keyed by identity only — after `connect(A, h1, R1)` and
then `connect(A, h2, R2)` (silent replacement), the registry maps A to the
replacement entry (h2, R2), and one `disconnect(A)` — as run by the stale
connection's cleanup path — removes A from both maps entirely, deregistering
the replacement connection's entry. -/
theorem C6_unregister_by_identity_only (st : ManagerState) (A R1 R2 : String)
    (h1 h2 : Handle) (hwf : WFState st) :
    lookupAL (ConnectionManager.connect (ConnectionManager.connect st h1 A R1)
        h2 A R2).active_connections A = some h2 ∧
    lookupAL (ConnectionManager.connect (ConnectionManager.connect st h1 A R1)
        h2 A R2).user_rooms A = some R2 ∧
    lookupAL (ConnectionManager.disconnect
        (ConnectionManager.connect (ConnectionManager.connect st h1 A R1) h2 A R2)
        A).active_connections A = none ∧
    lookupAL (ConnectionManager.disconnect
        (ConnectionManager.connect (ConnectionManager.connect st h1 A R1) h2 A R2)
        A).user_rooms A = none := by
  have hwf2 : WFState (ConnectionManager.connect
      (ConnectionManager.connect st h1 A R1) h2 A R2) :=
    WFState_connect _ h2 A R2 (WFState_connect _ h1 A R1 hwf)
  exact ⟨lookupAL_insertAL_self _ A h2, lookupAL_insertAL_self _ A R2,
    lookupAL_eraseAL_self _ A hwf2.1, lookupAL_eraseAL_self _ A hwf2.2⟩

theorem C6_unregister_by_identity_only_witness :
    lookupAL (ConnectionManager.connect (ConnectionManager.connect emptyManager
        1 "alice" "r1") 2 "alice" "r2").active_connections "alice" = some 2 ∧
    lookupAL (ConnectionManager.connect (ConnectionManager.connect emptyManager
        1 "alice" "r1") 2 "alice" "r2").user_rooms "alice" = some "r2" ∧
    lookupAL (ConnectionManager.disconnect (ConnectionManager.connect
        (ConnectionManager.connect emptyManager 1 "alice" "r1") 2 "alice" "r2")
        "alice").active_connections "alice" = none ∧
    lookupAL (ConnectionManager.disconnect (ConnectionManager.connect
        (ConnectionManager.connect emptyManager 1 "alice" "r1") 2 "alice" "r2")
        "alice").user_rooms "alice" = none :=
  C6_unregister_by_identity_only emptyManager "alice" "r1" "r2" 1 2
    (by constructor <;> decide)

/-- C5: room isolation — a broadcast of `relay_message(A, R1, content)` never
touches an identity whose `user_rooms` entry is some `R2 ≠ R1`: no send is
attempted on its handle (neither a successful delivery nor a recorded
failure), and it receives no event. -/
theorem C5_room_isolation (ok : Handle → Bool) (st : ManagerState) (mid : Nat)
    (A R1 R2 content u : String)
    (hu : lookupAL st.user_rooms u = some R2) (hne : R2 ≠ R1) :
    (∀ h, (u, h) ∉
      (broadcastLoop ok R1 (some A) st.user_rooms st.active_connections).1) ∧
    u ∉ (broadcastLoop ok R1 (some A) st.user_rooms st.active_connections).2 ∧
    ∀ ev, (u, ev) ∉ (relay_message ok st mid A R1 content).2 := by
  refine ⟨?_, ?_, ?_⟩
  · intro h hmem
    rw [mem_broadcastLoop_sent] at hmem
    have := hmem.2.1
    rw [hu] at this
    exact hne (Option.some.inj this)
  · intro hmem
    rw [mem_broadcastLoop_failed] at hmem
    obtain ⟨h, _, hlook, _⟩ := hmem
    rw [hu] at hlook
    exact hne (Option.some.inj hlook)
  · intro ev hmem
    rw [relay_message, mem_broadcast_deliveries] at hmem
    obtain ⟨_, h, _, hlook, _⟩ := hmem
    rw [hu] at hlook
    exact hne (Option.some.inj hlook)

theorem C5_room_isolation_witness :
    ("carol", 2) ∉ (broadcastLoop (fun _ => true) "general" (some "alice")
        [("alice", "general"), ("carol", "other")]
        [("alice", 0), ("carol", 2)]).1 ∧
    "carol" ∉ (broadcastLoop (fun _ => true) "general" (some "alice")
        [("alice", "general"), ("carol", "other")]
        [("alice", 0), ("carol", 2)]).2 ∧
    ("carol", Event.message 0 "alice" "general" "hi") ∉
      (relay_message (fun _ => true)
        ⟨[("alice", 0), ("carol", 2)], [("alice", "general"), ("carol", "other")]⟩
        0 "alice" "general" "hi").2 :=
  ⟨(C5_room_isolation (fun _ => true)
      ⟨[("alice", 0), ("carol", 2)], [("alice", "general"), ("carol", "other")]⟩
      0 "alice" "general" "other" "hi" "carol" (by decide) (by decide)).1 2,
   (C5_room_isolation (fun _ => true)
      ⟨[("alice", 0), ("carol", 2)], [("alice", "general"), ("carol", "other")]⟩
      0 "alice" "general" "other" "hi" "carol" (by decide) (by decide)).2.1,
   (C5_room_isolation (fun _ => true)
      ⟨[("alice", 0), ("carol", 2)], [("alice", "general"), ("carol", "other")]⟩
      0 "alice" "general" "other" "hi" "carol" (by decide) (by decide)).2.2
     (Event.message 0 "alice" "general" "hi")⟩

/-- C4: self-exclusion on join — in any state whose members of room R (users
with an `active_connections` entry and `user_rooms` pointing to R) are exactly
A, B and C, with B and C present on working handles, `announce_join(A, R)`
delivers the `user_joined` event for A to exactly B and C; A receives nothing
from this call. -/
theorem C4_self_exclusion_on_join (ok : Handle → Bool) (st : ManagerState)
    (A B C R : String) (hb hc : Handle)
    (hBA : B ≠ A) (hCA : C ≠ A)
    (hBmem : (B, hb) ∈ st.active_connections)
    (hBroom : lookupAL st.user_rooms B = some R) (hBok : ok hb = true)
    (hCmem : (C, hc) ∈ st.active_connections)
    (hCroom : lookupAL st.user_rooms C = some R) (hCok : ok hc = true)
    (hmem : ∀ u h, (u, h) ∈ st.active_connections →
      lookupAL st.user_rooms u = some R → u = A ∨ u = B ∨ u = C) :
    ∀ u ev, (u, ev) ∈ (announce_join ok st A R).2 ↔
      ((u = B ∨ u = C) ∧ ev = Event.user_joined A R) := by
  intro u ev
  rw [announce_join, mem_broadcast_deliveries]
  constructor
  · rintro ⟨rfl, h, hm, hroom, hne, _⟩
    rcases hmem u h hm hroom with rfl | rfl | rfl
    · exact (hne rfl).elim
    · exact ⟨Or.inl rfl, rfl⟩
    · exact ⟨Or.inr rfl, rfl⟩
  · rintro ⟨(rfl | rfl), rfl⟩
    · exact ⟨rfl, hb, hBmem, hBroom, by simpa using hBA, hBok⟩
    · exact ⟨rfl, hc, hCmem, hCroom, by simpa using hCA, hCok⟩

theorem C4_self_exclusion_on_join_witness :
    ("bob", Event.user_joined "alice" "general") ∈
        (announce_join (fun _ => true)
          ⟨[("alice", 0), ("bob", 1), ("carol", 2)],
           [("alice", "general"), ("bob", "general"), ("carol", "general")]⟩
          "alice" "general").2 ↔
      (("bob" = "bob" ∨ "bob" = "carol") ∧
        Event.user_joined "alice" "general" = Event.user_joined "alice" "general") :=
  C4_self_exclusion_on_join (fun _ => true)
    ⟨[("alice", 0), ("bob", 1), ("carol", 2)],
     [("alice", "general"), ("bob", "general"), ("carol", "general")]⟩
    "alice" "bob" "carol" "general" 1 2 (by decide) (by decide)
    (by decide) (by decide) rfl (by decide) (by decide) rfl
    (by
      intro u h hm _
      simp only [List.mem_cons, List.not_mem_nil, or_false] at hm
      rcases hm with h1 | h1 | h1
      · exact Or.inl (congrArg Prod.fst h1)
      · exact Or.inr (Or.inl (congrArg Prod.fst h1))
      · exact Or.inr (Or.inr (congrArg Prod.fst h1)))
    "bob" (Event.user_joined "alice" "general")

/-- C3: partial-failure isolation with reaping — with room R's members exactly
A, B, C, where B's handle fails and C's works, `relay_message(A, R, content)`
delivers the message event to C and to C only; afterwards B is removed from
both maps while A and C remain (so the reap sends nothing at all, in
particular no `user_left` event is broadcast for B). -/
theorem C3_partial_failure_isolation (A B C R content : String)
    (ha hb hc : Handle) (mid : Nat) (ok : Handle → Bool)
    (hAB : A ≠ B) (hAC : A ≠ C) (hBC : B ≠ C)
    (hbFail : ok hb = false) (hcOk : ok hc = true) :
    (relay_message ok ⟨[(A, ha), (B, hb), (C, hc)], [(A, R), (B, R), (C, R)]⟩
        mid A R content).2 = [(C, Event.message mid A R content)] ∧
    (relay_message ok ⟨[(A, ha), (B, hb), (C, hc)], [(A, R), (B, R), (C, R)]⟩
        mid A R content).1
      = ⟨[(A, ha), (C, hc)], [(A, R), (C, R)]⟩ := by
  constructor <;>
    simp [relay_message, ConnectionManager.broadcast_to_room, broadcastLoop,
      lookupAL, ConnectionManager.disconnect, eraseAL, hAB, hAC, hBC,
      Ne.symm hAB, Ne.symm hAC, Ne.symm hBC, hbFail, hcOk]

theorem C3_partial_failure_isolation_witness :
    (relay_message (fun h => decide (h ≠ 1))
        ⟨[("alice", 0), ("bob", 1), ("carol", 2)],
         [("alice", "general"), ("bob", "general"), ("carol", "general")]⟩
        0 "alice" "general" "x").2
      = [("carol", Event.message 0 "alice" "general" "x")] ∧
    (relay_message (fun h => decide (h ≠ 1))
        ⟨[("alice", 0), ("bob", 1), ("carol", 2)],
         [("alice", "general"), ("bob", "general"), ("carol", "general")]⟩
        0 "alice" "general" "x").1
      = ⟨[("alice", 0), ("carol", 2)], [("alice", "general"), ("carol", "general")]⟩ :=
  C3_partial_failure_isolation "alice" "bob" "carol" "general" "x" 0 1 2 0
    (fun h => decide (h ≠ 1)) (by decide) (by decide) (by decide)
    (by decide) (by decide)

section SessionClaims

theorem announce_leave_after_disconnect (ok : Handle → Bool) (uid rid : String)
    (st3 : ManagerState) (h3 : WFState st3) :
    lookupAL (announce_leave ok (ConnectionManager.disconnect st3 uid) uid
        rid).1.active_connections uid = none ∧
      lookupAL (announce_leave ok (ConnectionManager.disconnect st3 uid) uid
        rid).1.user_rooms uid = none := by
  have h4a : lookupAL (ConnectionManager.disconnect st3 uid).active_connections
      uid = none := lookupAL_eraseAL_self _ uid h3.1
  have h4r : lookupAL (ConnectionManager.disconnect st3 uid).user_rooms
      uid = none := lookupAL_eraseAL_self _ uid h3.2
  have h5 := lookup_none_foldl_disconnect
    (broadcastLoop ok rid none
      (ConnectionManager.disconnect st3 uid).user_rooms
      (ConnectionManager.disconnect st3 uid).active_connections).2
    (ConnectionManager.disconnect st3 uid) uid h4a h4r
  simpa [announce_leave, ConnectionManager.broadcast_to_room] using h5

/-- Whatever the inbound frames were, the session's `finally` block leaves the
session's own identity absent from both maps (on any well-formed start). -/
theorem websocketSession_removes_user (ok : Handle → Bool) (uid rid : String)
    (ws : Handle) (frames : List Payload) (st : ManagerState) (mid : Nat)
    (hwf : WFState st) :
    lookupAL (websocketSession ok uid rid ws frames st
        mid).1.active_connections uid = none ∧
      lookupAL (websocketSession ok uid rid ws frames st mid).1.user_rooms uid
        = none := by
  have hwf3 : WFState (inboundLoop ok uid rid frames
      (announce_join ok (ConnectionManager.connect st ws uid rid) uid rid).1
      mid).1 :=
    WFState_inboundLoop ok uid rid frames _ mid
      (WFState_broadcast ok _ _ rid (some uid) (WFState_connect st ws uid rid hwf))
  have := announce_leave_after_disconnect ok uid rid _ hwf3
  simpa [websocketSession, announce_join] using this

theorem websocketSession_break_tail (ok : Handle → Bool) (uid rid : String)
    (ws : Handle) (st : ManagerState) (mid : Nat) (pre rest : List Payload)
    (bad : Payload) (hpre : pre.all nonBreaking = true)
    (hbad : ∀ rest2 st2 mid2,
      inboundLoop ok uid rid (bad :: rest2) st2 mid2 = (st2, [], mid2)) :
    websocketSession ok uid rid ws (pre ++ bad :: rest) st mid
      = websocketSession ok uid rid ws pre st mid := by
  simp only [websocketSession]
  rw [inboundLoop_append ok uid rid pre (bad :: rest) _ _ hpre, hbad]
  simp

/-- C7: a malformed inbound payload ends the session like a disconnect — an
undecodable frame, or a `"message"`-typed frame with no `"content"` field,
terminates the inbound loop (later frames are ignored, nothing is relayed for
the bad frame), and the session then runs its disconnect path, leaving the
identity unregistered from both maps once the closing `user_left` broadcast
has been issued. -/
theorem C7_malformed_payload_ends_session (ok : Handle → Bool)
    (uid rid : String) (ws : Handle) (st : ManagerState) (mid : Nat)
    (pre rest : List Payload)
    (hpre : pre.all nonBreaking = true) (hwf : WFState st) :
    websocketSession ok uid rid ws (pre ++ Payload.undecodable :: rest) st mid
        = websocketSession ok uid rid ws pre st mid ∧
      websocketSession ok uid rid ws
          (pre ++ Payload.text (some "message") none :: rest) st mid
        = websocketSession ok uid rid ws pre st mid ∧
      lookupAL (websocketSession ok uid rid ws
          (pre ++ Payload.undecodable :: rest) st
          mid).1.active_connections uid = none ∧
      lookupAL (websocketSession ok uid rid ws
          (pre ++ Payload.undecodable :: rest) st mid).1.user_rooms uid
        = none := by
  have heq1 := websocketSession_break_tail ok uid rid ws st mid pre rest
    Payload.undecodable hpre
    (fun rest2 st2 mid2 => inboundLoop_undecodable ok uid rid rest2 st2 mid2)
  have heq2 := websocketSession_break_tail ok uid rid ws st mid pre rest
    (Payload.text (some "message") none) hpre
    (fun rest2 st2 mid2 => inboundLoop_missing_content ok uid rid rest2 st2 mid2)
  have hrm := websocketSession_removes_user ok uid rid ws
    (pre ++ Payload.undecodable :: rest) st mid hwf
  exact ⟨heq1, heq2, hrm.1, hrm.2⟩

theorem C7_malformed_payload_ends_session_witness :
    websocketSession (fun _ => true) "alice" "general" 0
        ([Payload.text (some "ping") none] ++
          Payload.undecodable :: [Payload.closedFrame]) emptyManager 0
      = websocketSession (fun _ => true) "alice" "general" 0
          [Payload.text (some "ping") none] emptyManager 0 ∧
    websocketSession (fun _ => true) "alice" "general" 0
        ([Payload.text (some "ping") none] ++
          Payload.text (some "message") none :: [Payload.closedFrame])
        emptyManager 0
      = websocketSession (fun _ => true) "alice" "general" 0
          [Payload.text (some "ping") none] emptyManager 0 ∧
    lookupAL (websocketSession (fun _ => true) "alice" "general" 0
        ([Payload.text (some "ping") none] ++
          Payload.undecodable :: [Payload.closedFrame]) emptyManager
        0).1.active_connections "alice" = none ∧
    lookupAL (websocketSession (fun _ => true) "alice" "general" 0
        ([Payload.text (some "ping") none] ++
          Payload.undecodable :: [Payload.closedFrame]) emptyManager
        0).1.user_rooms "alice" = none :=
  C7_malformed_payload_ends_session (fun _ => true) "alice" "general" 0
    emptyManager 0 [Payload.text (some "ping") none] [Payload.closedFrame]
    (by decide) (by constructor <;> decide)

/-- C10: unrecognized inbound types are ignored — a frame that decodes to an
object whose `"type"` is neither missing nor `"message"` causes no broadcast
and no registry change, and does not terminate the inbound loop: the session
behaves exactly as if the frame had not been received at all. -/
theorem C10_unrecognized_type_ignored (ok : Handle → Bool) (uid rid : String)
    (ws : Handle) (st : ManagerState) (mid : Nat) (pre rest : List Payload)
    (ty : String) (c : Option String) (hty : ty ≠ "message")
    (hpre : pre.all nonBreaking = true) :
    websocketSession ok uid rid ws (pre ++ Payload.text (some ty) c :: rest) st
        mid
      = websocketSession ok uid rid ws (pre ++ rest) st mid := by
  have hstep : ∀ st2 mid2,
      inboundLoop ok uid rid (Payload.text (some ty) c :: rest) st2 mid2
        = inboundLoop ok uid rid rest st2 mid2 := by
    intro st2 mid2
    simp [inboundLoop, inboundStep, hty]
  simp only [websocketSession]
  rw [inboundLoop_append ok uid rid pre (Payload.text (some ty) c :: rest) _ _
      hpre, hstep,
    inboundLoop_append ok uid rid pre rest _ _ hpre]

theorem C10_unrecognized_type_ignored_witness :
    websocketSession (fun _ => true) "alice" "general" 0
        ([] ++ Payload.text (some "ping") (some "zzz") ::
          [Payload.text (some "message") (some "hi")]) emptyManager 0
      = websocketSession (fun _ => true) "alice" "general" 0
          ([] ++ [Payload.text (some "message") (some "hi")]) emptyManager 0 :=
  C10_unrecognized_type_ignored (fun _ => true) "alice" "general" 0
    emptyManager 0 [] [Payload.text (some "message") (some "hi")] "ping"
    (some "zzz") (by decide) (by decide)

end SessionClaims

section LiveIteration

/-- The two-member room used to exhibit the live-iteration behaviour of
`broadcast_to_room`. -/
def liveDemoState : ManagerState :=
  ⟨[("A", 0), ("B", 1)], [("A", "general"), ("B", "general")]⟩

/-- With no concurrent mutation the live-iteration loop coincides with the
one-pass loop over the members present when it started. -/
theorem liveBroadcastLoop_no_mut (ok : Handle → Bool) (room : String)
    (ex : Option String) (fuel : Nat) :
    ∀ (i : Nat) (st : ManagerState),
      st.active_connections.length ≤ i + fuel →
      (liveBroadcastLoop ok room ex fuel i [] st).1
          = (broadcastLoop ok room ex st.user_rooms
              (st.active_connections.drop i)).1 ∧
        (liveBroadcastLoop ok room ex fuel i [] st).2.1
          = (broadcastLoop ok room ex st.user_rooms
              (st.active_connections.drop i)).2 := by
  induction fuel with
  | zero =>
      intro i st hfuel
      rw [List.drop_eq_nil_of_le (by omega)]
      simp [liveBroadcastLoop, broadcastLoop]
  | succ fuel ih =>
      intro i st hfuel
      cases hget : st.active_connections.get? i with
      | none =>
          rw [List.drop_eq_nil_of_le (List.get?_eq_none.mp hget)]
          rw [List.get?_eq_getElem?] at hget
          simp [liveBroadcastLoop, hget, broadcastLoop]
      | some p =>
          obtain ⟨pu, ph⟩ := p
          have hlt : i < st.active_connections.length :=
            List.get?_eq_some.mp hget |>.choose
          have hdrop : st.active_connections.drop i
              = (pu, ph) :: st.active_connections.drop (i + 1) := by
            rw [List.drop_eq_getElem_cons hlt]
            congr 1
            exact List.get?_eq_some.mp hget |>.choose_spec
          rw [hdrop]
          rw [List.get?_eq_getElem?] at hget
          by_cases hc : lookupAL st.user_rooms pu = some room ∧ some pu ≠ ex
          · by_cases hs : ok ph <;>
              simp [liveBroadcastLoop, hget, hc, hs, broadcastLoop,
                (ih (i + 1) st (by omega)).1, (ih (i + 1) st (by omega)).2]
          · simp [liveBroadcastLoop, hget, hc, broadcastLoop,
              (ih (i + 1) st (by omega)).1, (ih (i + 1) st (by omega)).2]

/-- C1: `broadcast_to_room` does not use a snapshot — the loop iterates the
live `active_connections` dict across `await` suspension points, so a
concurrent `connect` that replaces a member's entry during an earlier send
changes the set of (identity, handle) pairs the broadcast attempts.  Here the
room starts with members A and B; while the send to A is in flight, B
re-registers into room "other"; the live loop then sends only to A, whereas a
snapshot taken at the start of the broadcast contains both A and B. -/
theorem C1_broadcast_not_snapshot :
    (liveBroadcastLoop (fun _ => true) "general" none 3 0
        [fun st => ConnectionManager.connect st 2 "B" "other"] liveDemoState).1
        = [("A", 0)] ∧
      (broadcastLoop (fun _ => true) "general" none liveDemoState.user_rooms
          liveDemoState.active_connections).1
        = [("A", 0), ("B", 1)] ∧
      (liveBroadcastLoop (fun _ => true) "general" none 3 0
          [fun st => ConnectionManager.connect st 2 "B" "other"] liveDemoState).1
        ≠ (broadcastLoop (fun _ => true) "general" none liveDemoState.user_rooms
            liveDemoState.active_connections).1 := by
  decide

end LiveIteration
